import Mathlib

/-!
Shallow embedding of the APOD image-cache pipeline
(`apod_desktop.py`, `apod_api.py`).

Strings are modelled as `List Char` (named `Str`) so that the Python
string operations (strip, replace, split, upper, regex character
filtering) become structurally recursive list functions that proofs can
unfold.  Character classes are modelled over ASCII, which covers every
input appearing in the claims.

External collaborators are modelled as an environment record `Env`:
the NASA API response for the requested date (`apod_info`), the image
downloader and file writer of the missing `image_lib` module (modelled
from the spec, see the doc comments of `Env`), and the
`hashlib.sha256(...).hexdigest()` function, which is opaque to this
repository and therefore appears as an injected function.

The sqlite table `image_data` is modelled as a list of rows in rowid
order; `INSERT` appends a row whose `INTEGER PRIMARY KEY` id is
`max(existing ids) + 1` (sqlite's rowid assignment), and `SELECT`
scans the list front to back (`fetchone` returns the first match).
Python exceptions that the code lets escape are modelled with
`Except PyErr`.
-/

namespace Apod

/-- Strings of the model: lists of characters. -/
abbrev Str := List Char

/-- Character data of a Lean string literal, used to write concrete inputs. -/
def chars (s : String) : Str := s.data

/-- Python `str.strip` / `\s` whitespace set (ASCII part). -/
def isPySpace (c : Char) : Bool :=
  c = ' ' || c = '\t' || c = '\n' || c = '\r' || c = '\x0b' || c = '\x0c'

/-- Python regex word character `\w` (ASCII part): letter, digit or underscore. -/
def isWordChar (c : Char) : Bool :=
  c.isAlphanum || c = '_'

/-- Python `str.upper` (ASCII): uppercase every character. -/
def pyUpper (l : Str) : Str := l.map Char.toUpper

/-- Python `str.strip()`: drop leading and trailing whitespace. -/
def pyStrip (l : Str) : Str :=
  ((l.dropWhile isPySpace).reverse.dropWhile isPySpace).reverse

/-- Python `str.split(sep)` for a one-character separator: the list of
(possibly empty) chunks between occurrences of `sep`.  Mirrors
`"".split(".") == [""]`, `"a.".split(".") == ["a", ""]`, etc. -/
def py_split (sep : Char) : Str → List Str
  | [] => [[]]
  | c :: rest =>
    match py_split sep rest with
    | [] => [[c]]
    | g :: gs => if c = sep then [] :: g :: gs else (c :: g) :: gs

/-- `os.path.join` with POSIX separators: an absolute second component
replaces the first; otherwise a `/` is inserted unless one is already
there. -/
def os_path_join (a b : Str) : Str :=
  if b.head? = some '/' then b
  else if a = [] ∨ a.getLast? = some '/' then a ++ b
  else a ++ '/' :: b

/-- Python exceptions that the embedded code can raise past its caller. -/
inductive PyErr
  | typeError
  | keyError
deriving DecidableEq, Repr

/-- The APOD JSON record, with the fields the repository reads.
`hdurl` and `thumbnail_url` may be absent from the NASA payload, hence
`Option`; reading an absent key raises `KeyError`. -/
structure ApodDict where
  title : Str
  explanation : Str
  url : Str
  media_type : Str
  hdurl : Option Str
  thumbnail_url : Option Str
deriving Repr

/-- `apod_api.get_apod_image_url`: hdurl for image media, thumbnail_url
for video media; reading an absent key raises `KeyError`; any other
media type falls off the end of the function and returns `None`. -/
def get_apod_image_url (d : ApodDict) : Except PyErr (Option Str) :=
  if d.media_type = chars "image" then
    match d.hdurl with
    | some u => .ok (some u)
    | none => .error .keyError
  else if d.media_type = chars "video" then
    match d.thumbnail_url with
    | some u => .ok (some u)
    | none => .error .keyError
  else
    .ok none

/-- One row of the sqlite table `image_data`. -/
structure ImageRow where
  id : Nat
  title : Str
  explanation : Str
  file_path : Str
  sha256 : Str
deriving DecidableEq, Repr

/-- The mutable state touched by the pipeline: the `image_data` table
(rows in rowid order) and the files of the image cache directory. -/
structure CacheState where
  db : List ImageRow
  files : List (Str × List Nat)
deriving DecidableEq, Repr

/-- External collaborators of one pipeline run. -/
structure Env where
  /-- The module-level `image_cache_dir` (computed from the script
  location at import time, so environment-dependent). -/
  cache_dir : Str
  /-- `apod_api.get_apod_info(apod_date)`: the parsed JSON response for
  the requested date, `None` on a non-200 response. -/
  apod_info : Option ApodDict
  /-- Modelled from the spec: `image_lib.download_image` (module not in
  the repository snapshot) — `downloadBytes(url) -> ByteSequence | Error`,
  returning the body bytes or a failure indicator. -/
  download : Str → Option (List Nat)
  /-- `hashlib.sha256(bytes).hexdigest()`: opaque cryptographic digest,
  injected as a function from bytes to its hex string. -/
  hexdigest : List Nat → Str
  /-- Modelled from the spec: `image_lib.save_image_file` (module not in
  the repository snapshot) — writes bytes at a path and reports success;
  `WriteFailed` is reported as a falsy return, not an exception. -/
  save_ok : Str → List Nat → Bool

/-- sqlite rowid assignment for `INTEGER PRIMARY KEY`:
one more than the largest existing rowid. -/
def nextRowId (db : List ImageRow) : Nat :=
  (db.map (fun r => r.id)).foldr max 0 + 1

/-- `add_apod_to_db`: INSERT the four columns, storing `sha256.upper()`,
and return `lastrowid`.  (The `except` branch returning 0 covers I/O
errors of the connection, outside the model.) -/
def add_apod_to_db (title explanation file_path sha256 : Str)
    (db : List ImageRow) : Nat × List ImageRow :=
  let rid := nextRowId db
  (rid, db ++ [⟨rid, title, explanation, file_path, pyUpper sha256⟩])

/-- `get_apod_id_from_db`: `SELECT id FROM image_data WHERE sha256=?`
with the uppercased query hash; `fetchone` yields the first matching
row; 0 when there is none. -/
def get_apod_id_from_db (db : List ImageRow) (image_sha256 : Str) : Nat :=
  match db.find? (fun r => decide (r.sha256 = pyUpper image_sha256)) with
  | some r => r.id
  | none => 0

/-- The file-name part of `determine_apod_file_path`:
`file_ext = image_url.split(".")[-1]`;
`file_name = image_title.strip()` then `.replace(' ', '_')` then
`re.sub(r'\W+', '', ...)` (deleting every maximal run of non-word
characters deletes exactly the non-word characters);
finally `'.'.join((file_name, file_ext))`. -/
def apod_file_name (image_title image_url : Str) : Str :=
  let file_ext := (py_split '.' image_url).getLastD []
  let file_name := pyStrip image_title
  let file_name := file_name.map (fun c => if c = ' ' then '_' else c)
  let file_name := file_name.filter isWordChar
  file_name ++ '.' :: file_ext

/-- `determine_apod_file_path`: join the image cache directory with the
derived file name. -/
def determine_apod_file_path (cache_dir image_title image_url : Str) : Str :=
  os_path_join cache_dir (apod_file_name image_title image_url)

/-- `get_apod_info` (the DB lookup in `apod_desktop.py`):
`SELECT title, explanation, file_path FROM image_data WHERE id=?`,
then build the dictionary by subscripting `fetchone()`'s result.
When no row matches, `query_result` is `None` and `query_result[0]`
raises `TypeError`. -/
def get_apod_info_db (db : List ImageRow) (image_id : Nat) :
    Except PyErr (Str × Str × Str) :=
  match db.find? (fun r => decide (r.id = image_id)) with
  | none => .error .typeError
  | some r => .ok (r.title, r.explanation, r.file_path)

/-- `get_all_apod_titles`: `SELECT title FROM image_data` scans rows in
rowid order; the code returns the tuple of titles. -/
def get_all_apod_titles (db : List ImageRow) : List Str :=
  db.map (fun r => r.title)

/-- `add_apod_to_cache`: fetch the APOD record, download the image from
the record's `url` field, hash, dedup-check, save the file, insert the
row.  Returns the record id, or 0 on any failure. -/
def add_apod_to_cache (env : Env) (s : CacheState) : Nat × CacheState :=
  match env.apod_info with
  | none => (0, s)
  | some info =>
    match env.download info.url with
    | none => (0, s)
    | some bytes =>
      let sha := env.hexdigest bytes
      let aid := get_apod_id_from_db s.db sha
      if aid ≠ 0 then (aid, s)
      else
        let path := determine_apod_file_path env.cache_dir info.title info.url
        if env.save_ok path bytes then
          let res := add_apod_to_db info.title info.explanation path sha s.db
          (res.1, ⟨res.2, s.files ++ [(path, bytes)]⟩)
        else (0, s)

/-- `main`: add the APOD to the cache, then read its row back with
`get_apod_info` and hand the file path to the background setter
(external, out of scope).  No failure check happens between the two
steps. -/
def main_flow (env : Env) (s : CacheState) : Except PyErr CacheState :=
  let step := add_apod_to_cache env s
  match get_apod_info_db step.2.db step.1 with
  | .error e => .error e
  | .ok _ => .ok step.2

/-- All rows of a table built by inserts have a positive id. -/
def WfDb (db : List ImageRow) : Prop := ∀ r ∈ db, 1 ≤ r.id

instance (db : List ImageRow) : Decidable (WfDb db) :=
  inferInstanceAs (Decidable (∀ r ∈ db, 1 ≤ r.id))

/-- Single-pass reading of the (amended) file-name cleanup: a space
becomes an underscore, a word character stays, anything else is
dropped. -/
def nameSinglePass : Str → Str
  | [] => []
  | c :: rest =>
    if c = ' ' then '_' :: nameSinglePass rest
    else if isWordChar c then c :: nameSinglePass rest
    else nameSinglePass rest

/-- The characters after the last occurrence of `sep` (the whole string
when `sep` does not occur): what `s.split(sep)[-1]` denotes. -/
def afterLastSep (sep : Char) (l : Str) : Str :=
  (l.reverse.takeWhile (fun c => decide (c ≠ sep))).reverse

/-- Replace every maximal run of whitespace by a single underscore
(used only by the claim-side derivation below). -/
def collapseWsAux : Bool → Str → Str
  | _, [] => []
  | prevSp, c :: rest =>
    if isPySpace c then
      (if prevSp then collapseWsAux true rest
       else '_' :: collapseWsAux true rest)
    else c :: collapseWsAux false rest

/-- The file-name derivation exactly as the claim words it (for
comparison with the source-derived `determine_apod_file_path`): the
extension is the substring after the last dot of the final path segment
of the URL, and the name is the trimmed title with each internal
whitespace run replaced by one underscore and non-word characters
stripped. -/
def deriveFileName_specClaim (cache_dir title url : Str) : Str :=
  let seg := (py_split '/' url).getLastD []
  let ext := (py_split '.' seg).getLastD []
  let name := (collapseWsAux false (pyStrip title)).filter isWordChar
  os_path_join cache_dir (name ++ '.' :: ext)

/-- A sequence of `add_apod_to_db` inserts. -/
def insert_rows (items : List (Str × Str × Str × Str))
    (db : List ImageRow) : List ImageRow :=
  items.foldl (fun d it => (add_apod_to_db it.1 it.2.1 it.2.2.1 it.2.2.2 d).2) db

/-- Concrete image-type record for the C1 witness run. -/
def infoC1 : ApodDict :=
  ⟨chars "T", chars "E", chars "http://a/x.jpg", chars "image", none, none⟩

/-- Concrete environment for the C1 witness run. -/
def envC1 : Env :=
  ⟨chars "/images", some infoC1, fun u => some [3], fun bs => chars "ab",
   fun p bs => true⟩

/-- Cache state already holding an entry whose hash is the uppercased
digest of the bytes the C1 witness run downloads. -/
def sC1 : CacheState :=
  ⟨[⟨1, chars "T0", chars "E0", chars "P0", chars "AB"⟩], []⟩

/-- Image-type record whose standard `url` and high-definition `hdurl`
differ, for the C2 counterexample. -/
def infoC2 : ApodDict :=
  ⟨chars "T", chars "E", chars "http://a/sd.jpg", chars "image",
   some (chars "http://a/hd.png"), none⟩

/-- Environment whose downloader only answers for the record's standard
`url`, so a pipeline that requested the high-definition URL would fail. -/
def envC2 : Env :=
  ⟨chars "/images", some infoC2,
   fun u => if u = chars "http://a/sd.jpg" then some [7] else none,
   fun bs => chars "ff", fun p bs => true⟩

/-- A record with a media type that is neither image nor video. -/
def gifDict : ApodDict :=
  ⟨chars "T", chars "E", chars "u", chars "gif",
   some (chars "h"), some (chars "t")⟩

/-- Environment whose metadata fetch fails (non-200 response). -/
def envC6 : Env :=
  ⟨chars "/images", none, fun u => none, fun bs => [], fun p bs => true⟩

/-- Concrete image-type record for the C7 witness run. -/
def infoC7 : ApodDict :=
  ⟨chars "T", chars "E", chars "http://a/x.jpg", chars "image", none, none⟩

/-- Concrete environment for the C7 witness run; the digest of the
downloaded bytes is the lowercase string ab. -/
def envC7 : Env :=
  ⟨chars "/images", some infoC7, fun u => some [9], fun bs => chars "ab",
   fun p bs => true⟩

/-- Concrete image-type record for the C10 witness run. -/
def infoC10 : ApodDict :=
  ⟨chars "T", chars "E", chars "http://a/x.jpg", chars "image", none, none⟩

/-- Concrete environment for the C10 witness run. -/
def envC10 : Env :=
  ⟨chars "/images", some infoC10, fun u => some [1, 2], fun bs => chars "ab",
   fun p bs => true⟩

theorem filter_map_space (l : Str) :
    (l.map (fun c => if c = ' ' then '_' else c)).filter isWordChar
      = nameSinglePass l := by
  induction l with
  | nil => rfl
  | cons c rest ih =>
    by_cases hc : c = ' '
    · subst hc
      simp [List.filter_cons, nameSinglePass, ih,
        show isWordChar '_' = true from by decide]
    · simp only [List.map_cons, if_neg hc, List.filter_cons, nameSinglePass, if_neg hc]
      by_cases hw : isWordChar c
      · rw [if_pos hw, if_pos hw, ih]
      · rw [if_neg hw, if_neg hw, ih]

theorem py_split_ne_nil (sep : Char) (l : Str) : py_split sep l ≠ [] := by
  cases l with
  | nil => simp [py_split]
  | cons c rest =>
    simp only [py_split]
    cases h : py_split sep rest with
    | nil => simp
    | cons g gs => by_cases hc : c = sep <;> simp [hc]

theorem py_split_of_not_mem (sep : Char) (l : Str) (h : sep ∉ l) :
    py_split sep l = [l] := by
  induction l with
  | nil => rfl
  | cons c rest ih =>
    have hc : ¬ c = sep := fun e => h (e ▸ List.mem_cons_self c rest)
    have hr : sep ∉ rest := fun m => h (List.mem_cons_of_mem _ m)
    simp only [py_split, ih hr]
    simp [hc]

theorem py_split_length_of_mem (sep : Char) (l : Str) (h : sep ∈ l) :
    2 ≤ (py_split sep l).length := by
  induction l with
  | nil => cases h
  | cons c rest ih =>
    simp only [py_split]
    cases hr : py_split sep rest with
    | nil => exact absurd hr (py_split_ne_nil sep rest)
    | cons g gs =>
      by_cases hc : c = sep
      · simp [hc]
      · have hm : sep ∈ rest := by
          rcases List.mem_cons.mp h with h1 | h2
          · exact absurd h1.symm hc
          · exact h2
        have h2 := ih hm
        rw [hr] at h2
        simpa [hc] using h2

theorem takeWhile_append_of_neg {p : Char → Bool} (xs : Str) (a : Char)
    (h : p a = false) : (xs ++ [a]).takeWhile p = xs.takeWhile p := by
  induction xs with
  | nil => simp [List.takeWhile_cons, h]
  | cons x xs ih =>
    simp only [List.cons_append, List.takeWhile_cons]
    cases hx : p x <;> simp [ih]

theorem takeWhile_eq_self_of_forall {p : Char → Bool} (xs : Str)
    (h : ∀ x ∈ xs, p x = true) : xs.takeWhile p = xs := by
  induction xs with
  | nil => rfl
  | cons x xs ih =>
    rw [List.takeWhile_cons, h x (List.mem_cons_self x xs)]
    simp only [ite_true]
    rw [ih (fun y hy => h y (List.mem_cons_of_mem _ hy))]

theorem takeWhile_append_of_mem_neg {p : Char → Bool} (xs ys : Str)
    (h : ∃ x ∈ xs, p x = false) :
    (xs ++ ys).takeWhile p = xs.takeWhile p := by
  induction xs with
  | nil => rcases h with ⟨x, hx, _⟩; cases hx
  | cons x xs ih =>
    rcases h with ⟨y, hy, hpy⟩
    cases hpx : p x
    · simp [List.cons_append, List.takeWhile_cons, hpx]
    · rcases List.mem_cons.mp hy with rfl | hmem
      · rw [hpx] at hpy; cases hpy
      · simp [List.cons_append, List.takeWhile_cons, hpx, ih ⟨y, hmem, hpy⟩]

theorem py_split_getLastD (sep : Char) (l : Str) :
    (py_split sep l).getLastD [] = afterLastSep sep l := by
  induction l with
  | nil => rfl
  | cons c rest ih =>
    have hrev : (c :: rest).reverse = rest.reverse ++ [c] := by
      simp [List.reverse_cons]
    by_cases hc : c = sep
    · rw [hc]
      have hl : (py_split sep (sep :: rest)).getLastD []
          = (py_split sep rest).getLastD [] := by
        simp only [py_split]
        cases hr : py_split sep rest with
        | nil => exact absurd hr (py_split_ne_nil sep rest)
        | cons g gs => simp [List.getLastD_cons]
      rw [hl, ih]
      unfold afterLastSep
      have hrev2 : (sep :: rest).reverse = rest.reverse ++ [sep] := by
        simp [List.reverse_cons]
      rw [hrev2, takeWhile_append_of_neg _ _ (by simp)]
    · by_cases hm : sep ∈ rest
      · obtain ⟨g, gs, hr⟩ : ∃ g gs, py_split sep rest = g :: gs := by
          cases hr2 : py_split sep rest with
          | nil => exact absurd hr2 (py_split_ne_nil sep rest)
          | cons g gs => exact ⟨g, gs, rfl⟩
        have hgs : gs ≠ [] := by
          have h2 := py_split_length_of_mem sep rest hm
          rw [hr] at h2
          intro e
          subst e
          simp at h2
        have hsplit : py_split sep (c :: rest) = (c :: g) :: gs := by
          simp only [py_split]
          rw [hr]
          simp [hc]
        obtain ⟨y, ys, rfl⟩ := List.exists_cons_of_ne_nil hgs
        rw [hsplit, List.getLastD_cons, List.getLastD_cons]
        rw [hr, List.getLastD_cons, List.getLastD_cons] at ih
        rw [ih]
        unfold afterLastSep
        rw [hrev, takeWhile_append_of_mem_neg]
        exact ⟨sep, by simpa using hm, by simp⟩
      · have hr := py_split_of_not_mem sep rest hm
        have hsplit : py_split sep (c :: rest) = [c :: rest] := by
          simp only [py_split]
          rw [hr]
          simp [hc]
        rw [hsplit]
        unfold afterLastSep
        rw [takeWhile_eq_self_of_forall, List.reverse_reverse]
        · rfl
        · intro x hx
          rw [List.mem_reverse] at hx
          rcases List.mem_cons.mp hx with rfl | hmem
          · simpa using hc
          · have hxs : ¬ x = sep := fun e => hm (e ▸ hmem)
            simpa using hxs

theorem add_apod_to_cache_no_info (env : Env) (s : CacheState)
    (h : env.apod_info = none) : add_apod_to_cache env s = (0, s) := by
  simp [add_apod_to_cache, h]

theorem add_apod_to_cache_no_download (env : Env) (s : CacheState)
    (info : ApodDict) (h1 : env.apod_info = some info)
    (h2 : env.download info.url = none) :
    add_apod_to_cache env s = (0, s) := by
  simp [add_apod_to_cache, h1, h2]

theorem add_apod_to_cache_hit (env : Env) (s : CacheState) (info : ApodDict)
    (B : List Nat) (h1 : env.apod_info = some info)
    (h2 : env.download info.url = some B)
    (h3 : get_apod_id_from_db s.db (env.hexdigest B) ≠ 0) :
    add_apod_to_cache env s = (get_apod_id_from_db s.db (env.hexdigest B), s) := by
  simp [add_apod_to_cache, h1, h2, h3]

theorem add_apod_to_cache_hit_state (env : Env) (db : List ImageRow)
    (files : List (Str × List Nat)) (info : ApodDict) (B : List Nat)
    (h1 : env.apod_info = some info) (h2 : env.download info.url = some B)
    (h3 : get_apod_id_from_db db (env.hexdigest B) ≠ 0) :
    add_apod_to_cache env ⟨db, files⟩
      = (get_apod_id_from_db db (env.hexdigest B), ⟨db, files⟩) :=
  add_apod_to_cache_hit env ⟨db, files⟩ info B h1 h2 h3

theorem add_apod_to_cache_save_fail (env : Env) (s : CacheState)
    (info : ApodDict) (B : List Nat) (h1 : env.apod_info = some info)
    (h2 : env.download info.url = some B)
    (h3 : get_apod_id_from_db s.db (env.hexdigest B) = 0)
    (h4 : env.save_ok (determine_apod_file_path env.cache_dir info.title info.url) B = false) :
    add_apod_to_cache env s = (0, s) := by
  simp [add_apod_to_cache, h1, h2, h3, h4]

theorem add_apod_to_cache_insert (env : Env) (s : CacheState)
    (info : ApodDict) (B : List Nat) (h1 : env.apod_info = some info)
    (h2 : env.download info.url = some B)
    (h3 : get_apod_id_from_db s.db (env.hexdigest B) = 0)
    (h4 : env.save_ok (determine_apod_file_path env.cache_dir info.title info.url) B = true) :
    add_apod_to_cache env s
      = (nextRowId s.db,
         ⟨s.db ++ [⟨nextRowId s.db, info.title, info.explanation,
            determine_apod_file_path env.cache_dir info.title info.url,
            pyUpper (env.hexdigest B)⟩],
          s.files ++ [(determine_apod_file_path env.cache_dir info.title info.url, B)]⟩) := by
  simp [add_apod_to_cache, h1, h2, h3, h4, add_apod_to_db]

theorem get_apod_id_zero_of (db : List ImageRow) (q : Str) (hwf : WfDb db)
    (h : get_apod_id_from_db db q = 0) :
    ∀ r ∈ db, r.sha256 ≠ pyUpper q := by
  intro r hr heq
  unfold get_apod_id_from_db at h
  cases hf : db.find? (fun r => decide (r.sha256 = pyUpper q)) with
  | none => exact absurd heq (by simpa using List.find?_eq_none.mp hf r hr)
  | some r1 =>
    rw [hf] at h
    have hid : r1.id = 0 := h
    have hge := hwf r1 (List.mem_of_find?_eq_some hf)
    omega

theorem get_apod_id_append (db : List ImageRow) (q : Str) (row : ImageRow)
    (hmiss : ∀ r ∈ db, r.sha256 ≠ pyUpper q) (hrow : row.sha256 = pyUpper q) :
    get_apod_id_from_db (db ++ [row]) q = row.id := by
  unfold get_apod_id_from_db
  rw [List.find?_append]
  have h1 : db.find? (fun r => decide (r.sha256 = pyUpper q)) = none :=
    List.find?_eq_none.mpr (fun x hx => by simp [hmiss x hx])
  rw [h1]
  simp [List.find?, hrow]

theorem titles_insert_rows (items : List (Str × Str × Str × Str))
    (db : List ImageRow) :
    get_all_apod_titles (insert_rows items db)
      = get_all_apod_titles db ++ items.map (fun it => it.1) := by
  induction items generalizing db with
  | nil => simp [insert_rows, get_all_apod_titles]
  | cons it rest ih =>
    have h1 : insert_rows (it :: rest) db
        = insert_rows rest ((add_apod_to_db it.1 it.2.1 it.2.2.1 it.2.2.2 db).2) := rfl
    rw [h1, ih]
    simp [add_apod_to_db, get_all_apod_titles]

/-- Claim C1: when the SHA-256 of the downloaded bytes already matches a
cache entry, `add_apod_to_cache` returns that entry's id and leaves the
database and the file cache untouched; and re-running the pipeline on
the same bytes after any successful run returns the same id and changes
nothing. -/
theorem C1_dedup_idempotent (env : Env) (s : CacheState) (hwf : WfDb s.db) :
    (∀ info B, env.apod_info = some info → env.download info.url = some B →
        (∃ r ∈ s.db, r.sha256 = pyUpper (env.hexdigest B)) →
        ∃ i, i ≠ 0 ∧ add_apod_to_cache env s = (i, s) ∧
          ∃ r ∈ s.db, r.id = i ∧ r.sha256 = pyUpper (env.hexdigest B)) ∧
    ((add_apod_to_cache env s).1 ≠ 0 →
        add_apod_to_cache env ((add_apod_to_cache env s).2)
          = add_apod_to_cache env s) := by
  constructor
  · rintro info B hinfo hdl ⟨r0, hr0, hsha⟩
    cases hf : s.db.find? (fun r => decide (r.sha256 = pyUpper (env.hexdigest B))) with
    | none =>
      exact absurd hsha (by simpa using List.find?_eq_none.mp hf r0 hr0)
    | some r1 =>
      have hmem := List.mem_of_find?_eq_some hf
      have hpred : r1.sha256 = pyUpper (env.hexdigest B) := by
        simpa using List.find?_some hf
      have hid : get_apod_id_from_db s.db (env.hexdigest B) = r1.id := by
        unfold get_apod_id_from_db
        rw [hf]
      have hge := hwf r1 hmem
      have hne : get_apod_id_from_db s.db (env.hexdigest B) ≠ 0 := by omega
      refine ⟨r1.id, by omega, ?_, r1, hmem, rfl, hpred⟩
      rw [add_apod_to_cache_hit env s info B hinfo hdl hne, hid]
  · intro hne
    cases hinfo : env.apod_info with
    | none =>
      rw [add_apod_to_cache_no_info env s hinfo] at hne
      simp at hne
    | some info =>
      cases hdl : env.download info.url with
      | none =>
        rw [add_apod_to_cache_no_download env s info hinfo hdl] at hne
        simp at hne
      | some B =>
        by_cases hz : get_apod_id_from_db s.db (env.hexdigest B) = 0
        · by_cases hs : env.save_ok
              (determine_apod_file_path env.cache_dir info.title info.url) B = true
          · have hadd := add_apod_to_cache_insert env s info B hinfo hdl hz hs
            have hmiss := get_apod_id_zero_of s.db (env.hexdigest B) hwf hz
            have hget : get_apod_id_from_db
                (s.db ++ [⟨nextRowId s.db, info.title, info.explanation,
                  determine_apod_file_path env.cache_dir info.title info.url,
                  pyUpper (env.hexdigest B)⟩]) (env.hexdigest B) = nextRowId s.db :=
              get_apod_id_append s.db (env.hexdigest B)
                ⟨nextRowId s.db, info.title, info.explanation,
                  determine_apod_file_path env.cache_dir info.title info.url,
                  pyUpper (env.hexdigest B)⟩ hmiss rfl
            have hnz : get_apod_id_from_db
                (s.db ++ [⟨nextRowId s.db, info.title, info.explanation,
                  determine_apod_file_path env.cache_dir info.title info.url,
                  pyUpper (env.hexdigest B)⟩]) (env.hexdigest B) ≠ 0 := by
              rw [hget]
              unfold nextRowId
              omega
            rw [hadd]
            dsimp only
            exact (add_apod_to_cache_hit_state env
                (s.db ++ [⟨nextRowId s.db, info.title, info.explanation,
                  determine_apod_file_path env.cache_dir info.title info.url,
                  pyUpper (env.hexdigest B)⟩])
                (s.files ++ [(determine_apod_file_path env.cache_dir info.title info.url, B)])
                info B hinfo hdl hnz).trans (by rw [hget])
          · rw [add_apod_to_cache_save_fail env s info B hinfo hdl hz
                (by simpa using hs)] at hne
            simp at hne
        · have hadd := add_apod_to_cache_hit env s info B hinfo hdl hz
          rw [hadd]
          exact hadd

/-- Claim C1 witness: a concrete run whose bytes hash to a value already
stored (stored uppercase AB, digest lowercase ab) returns the existing
id 1 and leaves the state unchanged. -/
theorem C1_dedup_idempotent_witness :
    ∃ i, i ≠ 0 ∧ add_apod_to_cache envC1 sC1 = (i, sC1) ∧
      ∃ r ∈ sC1.db, r.id = i ∧ r.sha256 = pyUpper (envC1.hexdigest [3]) :=
  (C1_dedup_idempotent envC1 sC1 (by decide)).1 infoC1 [3] rfl rfl (by decide)

/-- Claim C2 counterexample: on an image record whose `url` and `hdurl`
differ, `get_apod_image_url` selects the hd URL, but the pipeline
succeeds even though downloading the hd URL is impossible in this
environment, and the cached file's name takes its extension from the
record's `url`, not from the selected hd URL. -/
theorem C2_counterexample_hd_url_not_used :
    get_apod_image_url infoC2 = Except.ok (some (chars "http://a/hd.png")) ∧
    envC2.download (chars "http://a/hd.png") = none ∧
    (add_apod_to_cache envC2 ⟨[], []⟩).1 = 1 ∧
    (add_apod_to_cache envC2 ⟨[], []⟩).2.files
      = [(chars "/images/T.jpg", [7])] ∧
    chars "/images/T.jpg"
      ≠ determine_apod_file_path (chars "/images") (chars "T")
          (chars "http://a/hd.png") := by
  refine ⟨rfl, by decide, by decide, by decide, by decide⟩

/-- Claim C2 amended: `add_apod_to_cache` downloads from the record's
`url` field for every media type (a failed download of that URL aborts
the run), and that same `url` is the one from which the cached file's
extension is derived; `get_apod_image_url` is never consulted. -/
theorem C2_amended_record_url_used (env : Env) (s : CacheState)
    (info : ApodDict) :
    (env.apod_info = some info → env.download info.url = none →
        add_apod_to_cache env s = (0, s)) ∧
    (∀ B, env.apod_info = some info → env.download info.url = some B →
        get_apod_id_from_db s.db (env.hexdigest B) = 0 →
        env.save_ok (determine_apod_file_path env.cache_dir info.title info.url) B = true →
        add_apod_to_cache env s
          = (nextRowId s.db,
             ⟨s.db ++ [⟨nextRowId s.db, info.title, info.explanation,
                 determine_apod_file_path env.cache_dir info.title info.url,
                 pyUpper (env.hexdigest B)⟩],
               s.files ++ [(determine_apod_file_path env.cache_dir info.title info.url, B)]⟩)) :=
  ⟨fun h1 h2 => add_apod_to_cache_no_download env s info h1 h2,
   fun B h1 h2 h3 h4 => add_apod_to_cache_insert env s info B h1 h2 h3 h4⟩

/-- Claim C2 amended witness: the concrete run stores the file under
`/images/T.jpg` (extension from the record url `http://a/sd.jpg`). -/
theorem C2_amended_record_url_used_witness :
    add_apod_to_cache envC2 ⟨[], []⟩
      = (1, ⟨[⟨1, chars "T", chars "E", chars "/images/T.jpg", chars "FF"⟩],
             [(chars "/images/T.jpg", [7])]⟩) := by
  have h := (C2_amended_record_url_used envC2 ⟨[], []⟩ infoC2).2
      [7] rfl (by decide) (by decide) (by decide)
  exact h.trans (by decide)

/-- Claim C3 counterexample: on the title A-space-space-B the code
yields two underscores where the claim's wording (whitespace run
becomes a single underscore) yields one, and on a URL whose final path
segment has no dot the code takes the extension from the last dot of
the whole URL. -/
theorem C3_counterexample_double_space :
    determine_apod_file_path (chars "/cache") (chars "A  B")
        (chars "http://h/d.x/f")
      = chars "/cache/A__B.x/f" ∧
    deriveFileName_specClaim (chars "/cache") (chars "A  B")
        (chars "http://h/d.x/f")
      = chars "/cache/A_B.f" ∧
    chars "/cache/A__B.x/f" ≠ chars "/cache/A_B.f" := by
  refine ⟨by decide, by decide, by decide⟩

/-- Claim C3 amended: `determine_apod_file_path` joins the cache
directory with name-dot-extension, where the name is the title trimmed
of leading and trailing whitespace with each space character replaced
by one underscore and every other non-word character (including other
whitespace) removed, and the extension is the substring after the last
dot of the entire URL; the function is pure (it is a function of its
arguments). -/
theorem C3_amended_file_name_derivation (dir T U : Str) :
    determine_apod_file_path dir T U
      = os_path_join dir (nameSinglePass (pyStrip T) ++ '.' :: afterLastSep '.' U) := by
  unfold determine_apod_file_path apod_file_name
  dsimp only
  rw [filter_map_space, py_split_getLastD]

/-- Claim C4: `get_apod_info` on an id that was never inserted does not
return a NotFound result: `fetchone` yields None and the dictionary
construction subscripts it, raising TypeError. -/
theorem C4_get_by_id_never_inserted_raises :
    get_apod_info_db [⟨1, chars "T", chars "E", chars "P", chars "H"⟩] 2
      = Except.error PyErr.typeError := rfl

/-- Claim C5 counterexample: on a record whose media type is neither
image nor video, `get_apod_image_url` does not fail — it falls off the
end and returns the absent value None. -/
theorem C5_counterexample_other_media_returns_none :
    get_apod_image_url gifDict = Except.ok none := rfl

/-- Claim C5 amended: `get_apod_image_url` returns hdurl for image
media and thumbnail_url for video media; on a video record with no
thumbnail field it raises KeyError (a hard failure, never an empty or
null URL); on any other media type it silently returns None rather
than failing. -/
theorem C5_amended_select_image_url (d : ApodDict) :
    (∀ u, d.media_type = chars "image" → d.hdurl = some u →
        get_apod_image_url d = Except.ok (some u)) ∧
    (∀ u, d.media_type = chars "video" → d.thumbnail_url = some u →
        get_apod_image_url d = Except.ok (some u)) ∧
    (d.media_type = chars "video" → d.thumbnail_url = none →
        get_apod_image_url d = Except.error PyErr.keyError) ∧
    (d.media_type ≠ chars "image" → d.media_type ≠ chars "video" →
        get_apod_image_url d = Except.ok none) := by
  refine ⟨?_, ?_, ?_, ?_⟩
  · intro u h1 h2
    unfold get_apod_image_url
    rw [h1, h2, if_pos rfl]
  · intro u h1 h2
    unfold get_apod_image_url
    rw [h1, h2, if_neg (by decide), if_pos rfl]
  · intro h1 h2
    unfold get_apod_image_url
    rw [h1, h2, if_neg (by decide), if_pos rfl]
  · intro h1 h2
    unfold get_apod_image_url
    rw [if_neg h1, if_neg h2]

/-- Claim C5 amended witness: a video record with no thumbnail raises
KeyError, and an image record returns its hd URL. -/
theorem C5_amended_select_image_url_witness :
    get_apod_image_url ⟨chars "T", chars "E", chars "u", chars "video", none, none⟩
        = Except.error PyErr.keyError ∧
    get_apod_image_url ⟨chars "T", chars "E", chars "u", chars "image",
        some (chars "h"), none⟩
        = Except.ok (some (chars "h")) :=
  ⟨(C5_amended_select_image_url _).2.2.1 rfl rfl,
   (C5_amended_select_image_url _).1 (chars "h") rfl rfl⟩

/-- Claim C6: on a pipeline failure (here: metadata unavailable),
`add_apod_to_cache` does return the zero failure indicator, but `main`
passes it straight to `get_apod_info`, which subscripts a None query
result and raises TypeError — the process crashes instead of handling
the failure. -/
theorem C6_pipeline_failure_crashes_main :
    add_apod_to_cache envC6 ⟨[], []⟩ = (0, ⟨[], []⟩) ∧
    main_flow envC6 ⟨[], []⟩ = Except.error PyErr.typeError :=
  ⟨rfl, rfl⟩

/-- Claim C7: an insert through the pipeline stores the uppercased hex
digest of the downloaded bytes, and looking the hash up under any
letter-case variant (same uppercasing) finds that row's id. -/
theorem C7_stored_hash_uppercase_lookup_case_insensitive (env : Env)
    (s : CacheState) (info : ApodDict) (B : List Nat) (hwf : WfDb s.db)
    (h1 : env.apod_info = some info) (h2 : env.download info.url = some B)
    (h3 : get_apod_id_from_db s.db (env.hexdigest B) = 0)
    (h4 : env.save_ok (determine_apod_file_path env.cache_dir info.title info.url) B = true) :
    ∃ row, (add_apod_to_cache env s).2.db = s.db ++ [row] ∧
      row.sha256 = pyUpper (env.hexdigest B) ∧
      row.id = (add_apod_to_cache env s).1 ∧
      ∀ q, pyUpper q = pyUpper (env.hexdigest B) →
        get_apod_id_from_db (add_apod_to_cache env s).2.db q = row.id := by
  have hadd := add_apod_to_cache_insert env s info B h1 h2 h3 h4
  have hmiss := get_apod_id_zero_of s.db (env.hexdigest B) hwf h3
  refine ⟨⟨nextRowId s.db, info.title, info.explanation,
      determine_apod_file_path env.cache_dir info.title info.url,
      pyUpper (env.hexdigest B)⟩, ?_, rfl, ?_, ?_⟩
  · rw [hadd]
  · rw [hadd]
  · intro q hq
    rw [hadd]
    dsimp only
    exact get_apod_id_append s.db q _
      (fun r hr => by
        rw [hq]
        exact hmiss r hr)
      (by rw [hq])

/-- Claim C7 witness: after a concrete insert whose digest is the
lowercase string ab, looking up the mixed-case variant Ab returns the
new row's id. -/
theorem C7_stored_hash_witness :
    get_apod_id_from_db (add_apod_to_cache envC7 ⟨[], []⟩).2.db (chars "Ab")
      = (add_apod_to_cache envC7 ⟨[], []⟩).1 := by
  obtain ⟨row, hdb, hsha, hid, hq⟩ :=
    C7_stored_hash_uppercase_lookup_case_insensitive envC7 ⟨[], []⟩ infoC7 [9]
      (by decide) rfl rfl (by decide) rfl
  rw [hq (chars "Ab") (by decide), hid]

/-- Claim C8: the documented example — title NGC hash 3521 Galaxy in a
Bubble with the NGC3521LRGBHaAPOD-20.jpg image URL — derives the file
name NGC underscore 3521 underscore Galaxy in a Bubble dot jpg under
the cache directory. -/
theorem C8_documented_example (dir : Str) :
    determine_apod_file_path dir (chars " NGC #3521: Galaxy in a Bubble ")
        (chars "https://apod.nasa.gov/apod/image/2205/NGC3521LRGBHaAPOD-20.jpg")
      = os_path_join dir (chars "NGC_3521_Galaxy_in_a_Bubble.jpg") := by
  unfold determine_apod_file_path
  exact congrArg (os_path_join dir) (by decide)

/-- Claim C9: `get_all_apod_titles` returns exactly the titles of all
inserted rows in insertion order; in particular inserting titles A then
B yields the sequence A, B. -/
theorem C9_titles_in_insertion_order :
    (∀ items : List (Str × Str × Str × Str),
        get_all_apod_titles (insert_rows items [])
          = items.map (fun it => it.1)) ∧
    get_all_apod_titles (insert_rows
        [(chars "A", chars "EA", chars "PA", chars "HA"),
         (chars "B", chars "EB", chars "PB", chars "HB")] [])
      = [chars "A", chars "B"] := by
  constructor
  · intro items
    simpa [get_all_apod_titles] using titles_insert_rows items []
  · decide

/-- Claim C10: every id assigned by an insert is at least 1; a hash
lookup either returns the 0 sentinel or the id of a stored row (which
is at least 1, so 0 never names a row); and every non-zero return of
`add_apod_to_cache` is the id of a row present in the resulting table. -/
theorem C10_zero_sentinel_and_valid_ids :
    (∀ t e p h db, 1 ≤ (add_apod_to_db t e p h db).1) ∧
    (∀ db q, WfDb db →
        get_apod_id_from_db db q = 0 ∨
          ∃ r ∈ db, r.id = get_apod_id_from_db db q ∧ 1 ≤ r.id) ∧
    (∀ env s, WfDb s.db → (add_apod_to_cache env s).1 ≠ 0 →
        ∃ r ∈ (add_apod_to_cache env s).2.db,
          r.id = (add_apod_to_cache env s).1) := by
  refine ⟨?_, ?_, ?_⟩
  · intro t e p h db
    simp [add_apod_to_db, nextRowId]
  · intro db q hwf
    unfold get_apod_id_from_db
    cases hf : db.find? (fun r => decide (r.sha256 = pyUpper q)) with
    | none => exact Or.inl rfl
    | some r =>
      exact Or.inr ⟨r, List.mem_of_find?_eq_some hf, rfl,
        hwf r (List.mem_of_find?_eq_some hf)⟩
  · intro env s hwf hne
    cases hinfo : env.apod_info with
    | none =>
      rw [add_apod_to_cache_no_info env s hinfo] at hne
      simp at hne
    | some info =>
      cases hdl : env.download info.url with
      | none =>
        rw [add_apod_to_cache_no_download env s info hinfo hdl] at hne
        simp at hne
      | some B =>
        by_cases hz : get_apod_id_from_db s.db (env.hexdigest B) = 0
        · by_cases hs : env.save_ok
              (determine_apod_file_path env.cache_dir info.title info.url) B = true
          · rw [add_apod_to_cache_insert env s info B hinfo hdl hz hs]
            exact ⟨_, List.mem_append_right _ (List.mem_singleton_self _), rfl⟩
          · rw [add_apod_to_cache_save_fail env s info B hinfo hdl hz
                (by simpa using hs)] at hne
            simp at hne
        · rw [add_apod_to_cache_hit env s info B hinfo hdl hz] at hne ⊢
          dsimp only at hne ⊢
          unfold get_apod_id_from_db at hne ⊢
          cases hf : s.db.find? (fun r => decide (r.sha256 = pyUpper (env.hexdigest B))) with
          | none =>
            rw [hf] at hne
            simp at hne
          | some r =>
            exact ⟨r, List.mem_of_find?_eq_some hf, rfl⟩

/-- Claim C10 witness: a concrete successful run returns a non-zero id
that names a row of the resulting table. -/
theorem C10_zero_sentinel_witness :
    (add_apod_to_cache envC10 ⟨[], []⟩).1 ≠ 0 ∧
    ∃ r ∈ (add_apod_to_cache envC10 ⟨[], []⟩).2.db,
      r.id = (add_apod_to_cache envC10 ⟨[], []⟩).1 :=
  ⟨by decide,
   C10_zero_sentinel_and_valid_ids.2.2 envC10 ⟨[], []⟩ (by decide) (by decide)⟩

end Apod
